import Mathlib

/-!
# Verification of the `image_optimizer` batch image-conversion CLI

Shallow embedding of the two JavaScript implementations in this repository
(`src/imageOptimizer.js` and the commander-based variant `src/unnamed/part_000`).

Modelling conventions:
* File-system paths are lists of path segments (`List String`); `path.join` is
  list append, `path.dirname` is `List.dropLast`, `path.basename` is the last
  segment, and `path.relative(base, p)` for `p` under `base` is
  `List.drop base.length`.  Both scripts only ever take `path.relative` of
  paths produced by joining names under the base, where this agrees with Node.
* The input tree seen by `fs.readdir(..., { withFileTypes: true })` is an
  inductive rose tree; each file entry carries the width that
  `sharp(..).metadata()` would report (`none` when sharp reports no width) and
  a flag telling whether the decode/encode of that file throws.
* Side effects (`fs.mkdir`, `pipeline.toFile`, the `catch` logging) are
  recorded as an ordered event list.
* JavaScript numbers coming out of `Number(string)` are modelled as `Option ℚ`
  (`none` for NaN); only decimal numerals are modelled (hexadecimal, exponent
  and `Infinity` forms are out of scope, as are qualities large enough to lose
  integer precision in a double).
* `String.prototype.toLowerCase` is modelled for ASCII (all supported
  extensions are ASCII).
-/

namespace ImageOptimizer

/-! ## Strings: `toLowerCase`, `path.extname`, `path.basename(p, ext)` -/

/-- ASCII `String.prototype.toLowerCase` (extensions are ASCII). -/
def asciiLower (s : String) : String := String.mk (s.data.map Char.toLower)

/-- Position of the last '.' in a character list, if any. -/
def lastDotAux : List Char → Nat → Option Nat → Option Nat
  | [], _, acc => acc
  | c :: cs, i, acc => lastDotAux cs (i + 1) (if c = '.' then some i else acc)

/-- Node `path.extname` on a bare file name (no separators): the substring
from the last '.' on, except that a name whose only dot is its first
character, or the special name "..", has extension "". -/
def extname (name : String) : String :=
  if name = ".." then ""
  else
    match lastDotAux name.data 0 none with
    | some i => if i = 0 then "" else String.mk (name.data.drop i)
    | none => ""

/-- Node `path.basename(name, extname(name))`: the name with its extension
removed (the extension is always a proper suffix, so plain stripping agrees
with Node). -/
def stripExt (name : String) : String :=
  String.mk (name.data.take (name.data.length - (extname name).data.length))

/-! ## Rename counters (`counters` / `renameCounters`, a JS `Map`) -/

/-- JS `Map` from folder name to next index, as an insertion-ordered
association list. -/
abbrev Counters := List (String × Nat)

/-- `Map.prototype.set`: replace in place if the key is present, else append. -/
def countersSet (m : Counters) (k : String) (v : Nat) : Counters :=
  match m with
  | [] => [(k, v)]
  | (k₀, v₀) :: rest =>
      if k₀ = k then (k₀, v) :: rest else (k₀, v₀) :: countersSet rest k v

/-- `Map.prototype.get`: the value stored at the first matching key. -/
def countersLookup : Counters → String → Option Nat
  | [], _ => none
  | (k₀, v) :: rest, k => if k₀ = k then some v else countersLookup rest k

/-- `counters.get(folder) || 1`: the stored value unless it is absent or
falsy (0). -/
def countersGet (m : Counters) (k : String) : Nat :=
  match countersLookup m k with
  | some v => if v = 0 then 1 else v
  | none => 1

/-- `nextIndex` / `getNextIndex`: return the current index for the folder and
store its successor. -/
def nextIndex (m : Counters) (folder : String) : Nat × Counters :=
  let n := countersGet m folder
  (n, countersSet m folder (n + 1))

/-! ## Configuration -/

/-- The configuration produced by CLI parsing.  Qualities are rationals
because `imageOptimizer.js` accepts any finite `Number(...)` in range
(fractional values included). -/
structure Config where
  jpegQuality : ℚ := 75
  compressPNG : Bool := false
  pngQuality : ℚ := 80
  renameFiles : Bool := false
  forceDelete : Bool := false
deriving Repr, DecidableEq

/-! ## Encoder settings and effect events -/

/-- The sharp encoder invoked on the resize pipeline.
`pngQuant q` is `.png({ quality: q, palette: true, compressionLevel: 9 })`,
`pngLossless` is `.png({ compressionLevel: 9, adaptiveFiltering: true })`,
`jpegMoz q` is `.jpeg({ quality: q, mozjpeg: true })`. -/
inductive EncodeSettings where
  | pngQuant (quality : ℚ)
  | pngLossless
  | jpegMoz (quality : ℚ)
deriving Repr, DecidableEq

/-- Observable file-system effects, in program order.
* `mkdirTree p`: the tree walker's `fs.mkdir(path.join(destDir, rel))`;
* `mkdirParent p`: the per-file transcoder's `fs.mkdir(path.dirname(destPath))`;
* `transcode src dst base w enc`: `pipeline.toFile(dst)` succeeded for source
  `src`, with output base name `base`, resize width `w` and encoder `enc`;
* `failed src dst base`: the `catch` branch logged a failure for `src` (the
  destination path `dst` and output base name `base` had already been
  computed before the throwing await). -/
inductive Event where
  | mkdirTree (path : List String)
  | mkdirParent (path : List String)
  | transcode (src dst : List String) (base : String)
      (resizeWidth : Option Nat) (encode : EncodeSettings)
  | failed (src dst : List String) (base : String)
deriving Repr, DecidableEq

/-- Result of one `optimiseImage` call. `dest`, `base`, `resizeWidth` and
`encode` record the computed plan; `events` the effects that actually
happened; `counters` the rename counters afterwards. -/
structure OptResult where
  dest : List String
  base : String
  resizeWidth : Option Nat
  encode : EncodeSettings
  events : List Event
  counters : Counters
deriving Repr, DecidableEq

/-! ## The per-file transcoders -/

/-- `optimiseImage(filePath, ext)` from `src/imageOptimizer.js` (lines
198-232).  `filePath` is the absolute source path in segments, `ext` the
lowercased extension passed by `processDir`, `width` the decoded metadata
width and `fails` whether the awaited sharp work throws (caught at line 229,
after the index was already taken at line 205 and the destination path
computed at line 208, but before the `mkdir` of line 223). -/
def optimiseImage_v1 (cfg : Config) (srcDir destDir : List String)
    (counters : Counters) (filePath : List String) (ext : String)
    (width : Option Nat) (fails : Bool) : OptResult :=
  let relDir := (filePath.dropLast).drop srcDir.length
  let parts := relDir.filter (fun s => s ≠ "")
  let top := match parts with
    | t :: _ => t
    | [] => (srcDir.getLast?).getD ""
  let baseName := stripExt ((filePath.getLast?).getD "")
  let idxC := if cfg.renameFiles then
      let p := nextIndex counters top
      (some p.1, p.2)
    else (none, counters)
  let newBase := match idxC.1 with
    | some idx => top ++ "-" ++ toString idx
    | none => baseName
  let destExt := if ext = ".png" then ".png" else ".jpg"
  let destPath := destDir ++ relDir ++ [newBase ++ destExt]
  let resizeWidth : Option Nat := match width with
    | some w => if w = 0 then none else if 1920 < w then some 1920 else none
    | none => none
  let encode := if ext = ".png" then
      if cfg.compressPNG then EncodeSettings.pngQuant cfg.pngQuality
      else EncodeSettings.pngLossless
    else EncodeSettings.jpegMoz cfg.jpegQuality
  if fails then
    { dest := destPath, base := newBase, resizeWidth := resizeWidth,
      encode := encode, events := [Event.failed filePath destPath newBase],
      counters := idxC.2 }
  else
    { dest := destPath, base := newBase, resizeWidth := resizeWidth,
      encode := encode,
      events := [Event.mkdirParent destPath.dropLast,
        Event.transcode filePath destPath newBase resizeWidth encode],
      counters := idxC.2 }

/-- `optimiseImage(filePath)` from `src/unnamed/part_000` (lines 130-190).
Identical computation, except that the lowercased extension is recomputed
from `filePath` (line 139) and `fs.mkdir(path.dirname(destinationPath))`
happens at line 143, before the fallible `metadata()` await. -/
def optimiseImage_v2 (cfg : Config) (srcDir destDir : List String)
    (counters : Counters) (filePath : List String)
    (width : Option Nat) (fails : Bool) : OptResult :=
  let relativeDir := (filePath.dropLast).drop srcDir.length
  let pathSegments := relativeDir.filter (fun s => s ≠ "")
  let topFolder := match pathSegments with
    | t :: _ => t
    | [] => (srcDir.getLast?).getD ""
  let originalName := stripExt ((filePath.getLast?).getD "")
  let idxC := if cfg.renameFiles then
      let p := nextIndex counters topFolder
      (some p.1, p.2)
    else (none, counters)
  let baseName := match idxC.1 with
    | some index => topFolder ++ "-" ++ toString index
    | none => originalName
  let sourceExt := asciiLower (extname ((filePath.getLast?).getD ""))
  let targetExt := if sourceExt = ".png" then ".png" else ".jpg"
  let destinationPath := destDir ++ relativeDir ++ [baseName ++ targetExt]
  let resizeWidth : Option Nat := match width with
    | some w => if w = 0 then none else if 1920 < w then some 1920 else none
    | none => none
  let encode := if sourceExt = ".png" then
      if cfg.compressPNG then EncodeSettings.pngQuant cfg.pngQuality
      else EncodeSettings.pngLossless
    else EncodeSettings.jpegMoz cfg.jpegQuality
  if fails then
    { dest := destinationPath, base := baseName, resizeWidth := resizeWidth,
      encode := encode,
      events := [Event.mkdirParent destinationPath.dropLast,
        Event.failed filePath destinationPath baseName],
      counters := idxC.2 }
  else
    { dest := destinationPath, base := baseName, resizeWidth := resizeWidth,
      encode := encode,
      events := [Event.mkdirParent destinationPath.dropLast,
        Event.transcode filePath destinationPath baseName resizeWidth encode],
      counters := idxC.2 }

/-! ## The directory tree and the tree walker -/

/-- A directory listing as `fs.readdir(dir, { withFileTypes: true })` reports
it, in readdir order.  A file entry carries the width sharp's `metadata()`
would report and whether transcoding that file throws. -/
inductive Entry where
  | file (name : String) (width : Option Nat) (fails : Bool)
  | dir (name : String) (entries : List Entry)
deriving Repr

/-- `SUPPORTED_EXT` / `SUPPORTED_EXTENSIONS`. -/
def SUPPORTED_EXT : List String :=
  [".jpg", ".jpeg", ".png", ".webp", ".tiff", ".gif", ".avif", ".bmp"]

/-- `processDir(dir)` from `src/imageOptimizer.js` (lines 178-193), which is
also `processDirectory(directory)` from `src/unnamed/part_000` (lines
197-212): iterate over the entries of `dir`; for a directory, `mkdir` its
mirror under `destDir` and recurse; for a file, dispatch it to
`optimiseImage` when its lowercased extension is supported.  Returns the
events in program order together with the final rename counters. -/
def processDir (cfg : Config) (srcDir destDir : List String)
    (t : List Entry) (dir : List String) (c : Counters) : List Event × Counters :=
  match t with
  | [] => ([], c)
  | Entry.dir name sub :: rest =>
      (Event.mkdirTree (destDir ++ (dir ++ [name]).drop srcDir.length)
          :: (processDir cfg srcDir destDir sub (dir ++ [name]) c).1
          ++ (processDir cfg srcDir destDir rest dir
                (processDir cfg srcDir destDir sub (dir ++ [name]) c).2).1,
        (processDir cfg srcDir destDir rest dir
          (processDir cfg srcDir destDir sub (dir ++ [name]) c).2).2)
  | Entry.file name width fails :: rest =>
      if SUPPORTED_EXT.contains (asciiLower (extname name)) then
        ((optimiseImage_v1 cfg srcDir destDir c (dir ++ [name])
              (asciiLower (extname name)) width fails).events
            ++ (processDir cfg srcDir destDir rest dir
                (optimiseImage_v1 cfg srcDir destDir c (dir ++ [name])
                  (asciiLower (extname name)) width fails).counters).1,
          (processDir cfg srcDir destDir rest dir
            (optimiseImage_v1 cfg srcDir destDir c (dir ++ [name])
              (asciiLower (extname name)) width fails).counters).2)
      else processDir cfg srcDir destDir rest dir c

/-! ## Spec-side views of a tree (used only to state properties) -/

/-- A file of the tree together with the path of its containing directory
relative to the walk root. -/
structure FileAt where
  dir : List String
  name : String
  width : Option Nat
  fails : Bool
deriving Repr, DecidableEq

/-- All files of a tree, in walk order, with relative directories
(accumulator `r` is the relative path of the current directory). -/
def filesUnder : List Entry → List String → List FileAt
  | [], _ => []
  | Entry.dir name sub :: rest, r => filesUnder sub (r ++ [name]) ++ filesUnder rest r
  | Entry.file name width fails :: rest, r =>
      { dir := r, name := name, width := width, fails := fails } :: filesUnder rest r

/-- All directories of a tree, in walk order, as relative paths. -/
def dirsUnder : List Entry → List String → List (List String)
  | [], _ => []
  | Entry.dir name sub :: rest, r =>
      (r ++ [name]) :: (dirsUnder sub (r ++ [name]) ++ dirsUnder rest r)
  | Entry.file _ _ _ :: rest, r => dirsUnder rest r

/-- Whether a file name has a supported (lowercased) extension. -/
def isSupported (name : String) : Bool :=
  SUPPORTED_EXT.contains (asciiLower (extname name))

/-- Source path of a dispatch (an `optimiseImage` call), successful or not. -/
def dispatchSrc : Event → Option (List String)
  | Event.transcode src _ _ _ _ => some src
  | Event.failed src _ _ => some src
  | _ => none

/-- Source path of a successful transcode. -/
def successSrc : Event → Option (List String)
  | Event.transcode src _ _ _ _ => some src
  | _ => none

/-- Directory created by the tree walker (not by `optimiseImage`). -/
def mkdirTreePath : Event → Option (List String)
  | Event.mkdirTree p => some p
  | _ => none

/-- The `top` string `optimiseImage` derives from a source path: the first
nonempty segment of the directory path relative to `srcDir`, or
`path.basename(srcDir)` for files directly in the input root. -/
def topOfSrc (srcDir src : List String) : String :=
  match ((src.dropLast).drop srcDir.length).filter (fun s => s ≠ "") with
  | t :: _ => t
  | [] => (srcDir.getLast?).getD ""

/-- Output base name of a dispatch whose `top` string is `k`. -/
def dispatchBaseFor (srcDir : List String) (k : String) : Event → Option String
  | Event.transcode src _ base _ _ =>
      if topOfSrc srcDir src = k then some base else none
  | Event.failed src _ base =>
      if topOfSrc srcDir src = k then some base else none
  | _ => none

/-! ## Output preparation (`imageOptimizer.js` lines 149-162,
`part_000` lines 242-261) -/

/-- Result of preparing the output directory. -/
structure PrepResult where
  deleted : Bool
  contentsAfter : List String
  existsAfter : Bool
deriving Repr, DecidableEq

/-- The output-directory handling: if `destDir` exists (`dest = some files`)
and is nonempty, delete it when `--force-delete` was given, else when the
user answers yes; then `fs.mkdir(destDir, { recursive: true })` (which keeps
the contents of a surviving directory). -/
def prepareOutput (forceDelete : Bool) (dest : Option (List String))
    (userConfirm : Bool) : PrepResult :=
  match dest with
  | some files =>
      if files.length ≠ 0 then
        if (if forceDelete then true else userConfirm) then
          { deleted := true, contentsAfter := [], existsAfter := true }
        else
          { deleted := false, contentsAfter := files, existsAfter := true }
      else { deleted := false, contentsAfter := files, existsAfter := true }
  | none => { deleted := false, contentsAfter := [], existsAfter := true }

/-! ## CLI parsing -/

/-- Numeric value of a decimal digit. -/
def digitVal (c : Char) : Option Nat :=
  if '0' ≤ c ∧ c ≤ '9' then some (c.toNat - 48) else none

/-- Read a maximal run of decimal digits: value, number of digits, rest. -/
def readDigits : List Char → Nat → Nat → Nat × Nat × List Char
  | [], acc, n => (acc, n, [])
  | c :: cs, acc, n =>
      match digitVal c with
      | some d => readDigits cs (acc * 10 + d) (n + 1)
      | none => (acc, n, c :: cs)

/-- JavaScript `Number(string)` restricted to decimal numerals: optional
sign, integer digits, optional fraction; the empty / all-whitespace string
is 0; anything else (including the hexadecimal, exponent and `Infinity`
forms, which never reach this CLI) is modelled as `none` (NaN). -/
def jsNumber (s : String) : Option ℚ :=
  if s.data.all (fun c => c = ' ' ∨ c = '\t' ∨ c = '\n' ∨ c = '\r') then some 0
  else
    (fun (neg : Bool) (cs : List Char) =>
      match readDigits cs 0 0 with
      | (iv, icount, rest) =>
        match rest with
        | '.' :: frac =>
            match readDigits frac 0 0 with
            | (fv, fcount, rest2) =>
              if rest2 = [] ∧ 1 ≤ icount + fcount then
                some ((if neg then (-1 : ℚ) else 1) * ((iv : ℚ) + (fv : ℚ) / (10 : ℚ) ^ fcount))
              else none
        | [] => if 1 ≤ icount then
              some (if neg then -(iv : ℚ) else (iv : ℚ))
            else none
        | _ => none)
    (match s.data with
      | '-' :: _ => true
      | _ => false)
    (match s.data with
      | '-' :: r => r
      | '+' :: r => r
      | cs => cs)

/-- `arg.startsWith("-")`. -/
def startsWithDash (s : String) : Bool :=
  match s.data with
  | '-' :: _ => true
  | _ => false

/-- Outcome of CLI parsing: a configuration plus positional arguments, an
error printed to stderr followed by `process.exit(1)`, or an exit through
`showHelp()` / commander's help and error paths. -/
inductive ParseOutcome where
  | ok (cfg : Config) (posArgs : List String)
  | errorExit (msg : String)
  | helpExit
deriving Repr, DecidableEq

/-- The argv loop of `src/imageOptimizer.js` (lines 78-123): arguments
starting with "-" are matched against the known options (`-q` / `--quality`
and `-P` / `--png-quality` consume the following argument and require a finite
number in 1-100, `-P` also sets `compressPNG`; unknown options and `-h`
reach `showHelp()`, which exits); all other arguments are positional. -/
def parseLoop : List String → Config → List String → ParseOutcome
  | [], cfg, pos => ParseOutcome.ok cfg pos
  | arg :: rest, cfg, pos =>
    if startsWithDash arg then
      if arg = "-q" ∨ arg = "--quality" then
        match rest with
        | v :: rest2 =>
            match jsNumber v with
            | some q =>
                if q < 1 ∨ 100 < q then ParseOutcome.errorExit "JPEG quality must be 1-100"
                else parseLoop rest2 { cfg with jpegQuality := q } pos
            | none => ParseOutcome.errorExit "JPEG quality must be 1-100"
        | [] => ParseOutcome.errorExit "JPEG quality must be 1-100"
      else if arg = "-P" ∨ arg = "--png-quality" then
        match rest with
        | v :: rest2 =>
            match jsNumber v with
            | some q =>
                if q < 1 ∨ 100 < q then ParseOutcome.errorExit "PNG quality must be 1-100"
                else parseLoop rest2 { cfg with pngQuality := q, compressPNG := true } pos
            | none => ParseOutcome.errorExit "PNG quality must be 1-100"
        | [] => ParseOutcome.errorExit "PNG quality must be 1-100"
      else if arg = "--compress-png" then parseLoop rest { cfg with compressPNG := true } pos
      else if arg = "--rename" then parseLoop rest { cfg with renameFiles := true } pos
      else if arg = "--force-delete" then parseLoop rest { cfg with forceDelete := true } pos
      else if arg = "-h" ∨ arg = "--help" then ParseOutcome.helpExit
      else ParseOutcome.helpExit
    else parseLoop rest cfg (pos ++ [arg])

/-- `parseIntegerInRange(min, max)` from `src/unnamed/part_000` (lines
94-102): `Number(value)` must be an integer within the closed range,
otherwise the processing function throws (commander turns this into an
error exit). -/
def parseIntegerInRange (min max : ℚ) (value : String) : Option ℚ :=
  match jsNumber value with
  | some parsed =>
      if ¬ parsed.isInt ∨ parsed < min ∨ max < parsed then none else some parsed
  | none => none

/-- Commander's option handling for the program defined in
`src/unnamed/part_000` (lines 59-84), restricted to space-separated tokens:
the two value options run `parseIntegerInRange 1 100` on the next token;
the boolean flags set their option; help/version exit; unknown dashed
options are an error.  `opts.pngQuality` does NOT touch `compressPng`:
`compressPNG` is `options.compressPng || false` (line 81).  Positional
arguments are collected in order. -/
def parseCommander : List String → Config → List String → ParseOutcome
  | [], cfg, pos => ParseOutcome.ok cfg pos
  | arg :: rest, cfg, pos =>
    if arg = "-q" ∨ arg = "--quality" then
      match rest with
      | v :: rest2 =>
          match parseIntegerInRange 1 100 v with
          | some q => parseCommander rest2 { cfg with jpegQuality := q } pos
          | none => ParseOutcome.errorExit "Value must be an integer between 1 and 100"
      | [] => ParseOutcome.errorExit "option argument missing"
    else if arg = "-P" ∨ arg = "--png-quality" then
      match rest with
      | v :: rest2 =>
          match parseIntegerInRange 1 100 v with
          | some q => parseCommander rest2 { cfg with pngQuality := q } pos
          | none => ParseOutcome.errorExit "Value must be an integer between 1 and 100"
      | [] => ParseOutcome.errorExit "option argument missing"
    else if arg = "--compress-png" then parseCommander rest { cfg with compressPNG := true } pos
    else if arg = "--rename" then parseCommander rest { cfg with renameFiles := true } pos
    else if arg = "--force-delete" then parseCommander rest { cfg with forceDelete := true } pos
    else if arg = "-h" ∨ arg = "--help" ∨ arg = "-V" ∨ arg = "--version" then ParseOutcome.helpExit
    else if startsWithDash arg then ParseOutcome.errorExit "unknown option"
    else parseCommander rest cfg (pos ++ [arg])

/-! ## Top-level program flow (`src/imageOptimizer.js` lines 138-238) -/

/-- One step of the observable program trace. -/
inductive TraceEv where
  | configDone (cfg : Config)
  | exited
  | prepared (p : PrepResult)
  | walkEv (e : Event)
deriving Repr, DecidableEq

/-- The module-level flow of `src/imageOptimizer.js`: parse argv (any parse
failure exits the process before anything else happens); check that the
input directory exists; prepare the output directory; then walk the tree.
`srcDir`/`destDir` are the `path.resolve`d directories (path resolution of
the positional arguments is abstracted); `destContents` is the pre-state of
the output directory and `userConfirm` the answer `askYesNo` would get. -/
def runProgram (argv : List String) (srcExists : Bool)
    (srcDir destDir : List String) (t : List Entry)
    (destContents : Option (List String)) (userConfirm : Bool) : List TraceEv :=
  match parseLoop argv {} [] with
  | ParseOutcome.errorExit _ => []
  | ParseOutcome.helpExit => []
  | ParseOutcome.ok cfg _ =>
      if srcExists then
        TraceEv.configDone cfg
          :: TraceEv.prepared (prepareOutput cfg.forceDelete destContents userConfirm)
          :: (processDir cfg srcDir destDir t srcDir []).1.map TraceEv.walkEv
      else [TraceEv.configDone cfg, TraceEv.exited]

/-! ## Lemmas about counters -/

theorem lookup_countersSet_self (m : Counters) (k : String) (v : Nat) :
    countersLookup (countersSet m k v) k = some v := by
  induction m with
  | nil => simp [countersSet, countersLookup]
  | cons p rest ih =>
      obtain ⟨k₀, v₀⟩ := p
      by_cases h : k₀ = k <;> simp [countersSet, countersLookup, h, ih]

theorem lookup_countersSet_ne (m : Counters) (k k' : String) (v : Nat)
    (h : k' ≠ k) : countersLookup (countersSet m k v) k' = countersLookup m k' := by
  have h₂ : ¬(k = k') := fun hh => h hh.symm
  induction m with
  | nil => simp [countersSet, countersLookup, h₂]
  | cons p rest ih =>
      obtain ⟨k₀, v₀⟩ := p
      by_cases h₀ : k₀ = k
      · subst h₀
        simp [countersSet, countersLookup, h₂]
      · simp only [countersSet, if_neg h₀, countersLookup]
        by_cases h₁ : k₀ = k' <;> simp [h₁, ih]

theorem countersGet_set_self (m : Counters) (k : String) (v : Nat) :
    countersGet (countersSet m k v) k = if v = 0 then 1 else v := by
  simp [countersGet, lookup_countersSet_self]

theorem countersGet_set_ne (m : Counters) (k k' : String) (v : Nat)
    (h : k' ≠ k) : countersGet (countersSet m k v) k' = countersGet m k' := by
  simp [countersGet, lookup_countersSet_ne m k k' v h]

theorem countersGet_pos (m : Counters) (k : String) : 1 ≤ countersGet m k := by
  cases h : countersLookup m k with
  | none => simp [countersGet, h]
  | some v => simp only [countersGet, h]; split <;> omega

/-! ## Lemmas about a single `optimiseImage` call -/

theorem opt_v1_events_shape (cfg : Config) (srcDir destDir : List String)
    (c : Counters) (fp : List String) (ext : String) (w : Option Nat) (fl : Bool) :
    (optimiseImage_v1 cfg srcDir destDir c fp ext w fl).events
      = if fl then
          [Event.failed fp (optimiseImage_v1 cfg srcDir destDir c fp ext w fl).dest
            (optimiseImage_v1 cfg srcDir destDir c fp ext w fl).base]
        else
          [Event.mkdirParent (optimiseImage_v1 cfg srcDir destDir c fp ext w fl).dest.dropLast,
            Event.transcode fp (optimiseImage_v1 cfg srcDir destDir c fp ext w fl).dest
              (optimiseImage_v1 cfg srcDir destDir c fp ext w fl).base
              (optimiseImage_v1 cfg srcDir destDir c fp ext w fl).resizeWidth
              (optimiseImage_v1 cfg srcDir destDir c fp ext w fl).encode] := by
  cases fl <;> simp [optimiseImage_v1]

theorem opt_v1_counters (cfg : Config) (srcDir destDir : List String)
    (c : Counters) (fp : List String) (ext : String) (w : Option Nat) (fl : Bool) :
    (optimiseImage_v1 cfg srcDir destDir c fp ext w fl).counters
      = if cfg.renameFiles then
          countersSet c (topOfSrc srcDir fp) (countersGet c (topOfSrc srcDir fp) + 1)
        else c := by
  cases hr : cfg.renameFiles <;> cases fl <;>
    simp [optimiseImage_v1, nextIndex, topOfSrc, hr]

theorem opt_v1_dest (cfg : Config) (srcDir destDir : List String)
    (c : Counters) (fp : List String) (ext : String) (w : Option Nat) (fl : Bool) :
    (optimiseImage_v1 cfg srcDir destDir c fp ext w fl).dest
      = destDir ++ (fp.dropLast).drop srcDir.length
          ++ [(optimiseImage_v1 cfg srcDir destDir c fp ext w fl).base
                ++ (if ext = ".png" then ".png" else ".jpg")] := by
  cases fl <;> cases hr : cfg.renameFiles <;> simp [optimiseImage_v1, hr]

theorem opt_v1_base_rename (cfg : Config) (srcDir destDir : List String)
    (c : Counters) (fp : List String) (ext : String) (w : Option Nat) (fl : Bool)
    (hr : cfg.renameFiles = true) :
    (optimiseImage_v1 cfg srcDir destDir c fp ext w fl).base
      = topOfSrc srcDir fp ++ "-" ++ toString (countersGet c (topOfSrc srcDir fp)) := by
  cases fl <;> simp [optimiseImage_v1, nextIndex, topOfSrc, hr]

theorem opt_v1_base_norename (cfg : Config) (srcDir destDir : List String)
    (c : Counters) (fp : List String) (ext : String) (w : Option Nat) (fl : Bool)
    (hr : cfg.renameFiles = false) :
    (optimiseImage_v1 cfg srcDir destDir c fp ext w fl).base
      = stripExt ((fp.getLast?).getD "") := by
  cases fl <;> simp [optimiseImage_v1, hr]

theorem opt_v1_resizeWidth (cfg : Config) (srcDir destDir : List String)
    (c : Counters) (fp : List String) (ext : String) (w : Option Nat) (fl : Bool) :
    (optimiseImage_v1 cfg srcDir destDir c fp ext w fl).resizeWidth
      = match w with
        | some wv => if wv = 0 then none else if 1920 < wv then some 1920 else none
        | none => none := by
  cases fl <;> simp [optimiseImage_v1]

theorem opt_v1_encode (cfg : Config) (srcDir destDir : List String)
    (c : Counters) (fp : List String) (ext : String) (w : Option Nat) (fl : Bool) :
    (optimiseImage_v1 cfg srcDir destDir c fp ext w fl).encode
      = if ext = ".png" then
          if cfg.compressPNG then EncodeSettings.pngQuant cfg.pngQuality
          else EncodeSettings.pngLossless
        else EncodeSettings.jpegMoz cfg.jpegQuality := by
  cases fl <;> simp [optimiseImage_v1]

theorem opt_v1_events_dispatch (cfg : Config) (srcDir destDir : List String)
    (c : Counters) (fp : List String) (ext : String) (w : Option Nat) (fl : Bool) :
    (optimiseImage_v1 cfg srcDir destDir c fp ext w fl).events.filterMap dispatchSrc
      = [fp] := by
  rw [opt_v1_events_shape]
  cases fl <;> simp [dispatchSrc]

theorem opt_v1_events_success (cfg : Config) (srcDir destDir : List String)
    (c : Counters) (fp : List String) (ext : String) (w : Option Nat) (fl : Bool) :
    (optimiseImage_v1 cfg srcDir destDir c fp ext w fl).events.filterMap successSrc
      = if fl then [] else [fp] := by
  rw [opt_v1_events_shape]
  cases fl <;> simp [successSrc]

theorem opt_v1_events_mkdirTree (cfg : Config) (srcDir destDir : List String)
    (c : Counters) (fp : List String) (ext : String) (w : Option Nat) (fl : Bool) :
    (optimiseImage_v1 cfg srcDir destDir c fp ext w fl).events.filterMap mkdirTreePath
      = [] := by
  rw [opt_v1_events_shape]
  cases fl <;> simp [mkdirTreePath]

theorem opt_v1_events_baseFor (cfg : Config) (srcDir destDir : List String)
    (c : Counters) (fp : List String) (ext : String) (w : Option Nat) (fl : Bool)
    (k : String) (hr : cfg.renameFiles = true) :
    (optimiseImage_v1 cfg srcDir destDir c fp ext w fl).events.filterMap
        (dispatchBaseFor srcDir k)
      = if topOfSrc srcDir fp = k then
          [k ++ "-" ++ toString (countersGet c k)] else [] := by
  rw [opt_v1_events_shape]
  by_cases ht : topOfSrc srcDir fp = k
  · subst ht
    cases fl <;>
      simp [dispatchBaseFor, opt_v1_base_rename cfg srcDir destDir c fp ext w _ hr]
  · cases fl <;> simp [dispatchBaseFor, ht]

/-! ## Lemmas about the tree walker -/

theorem processDir_append (cfg : Config) (srcDir destDir : List String)
    (a b : List Entry) (dir : List String) (c : Counters) :
    processDir cfg srcDir destDir (a ++ b) dir c
      = ((processDir cfg srcDir destDir a dir c).1
            ++ (processDir cfg srcDir destDir b dir
                  (processDir cfg srcDir destDir a dir c).2).1,
          (processDir cfg srcDir destDir b dir
            (processDir cfg srcDir destDir a dir c).2).2) := by
  induction a generalizing c with
  | nil => simp [processDir]
  | cons e rest ih =>
      cases e with
      | dir name sub => simp [processDir, ih]
      | file name width fails =>
          by_cases hs : asciiLower (extname name) ∈ SUPPORTED_EXT <;>
            simp [processDir, hs, ih]

theorem processDir_dispatchSrc (cfg : Config) (srcDir destDir : List String)
    (t : List Entry) (dir : List String) (c : Counters) :
    (processDir cfg srcDir destDir t dir c).1.filterMap dispatchSrc
      = ((filesUnder t dir).filter (fun f => isSupported f.name)).map
          (fun f => f.dir ++ [f.name]) := by
  induction t, dir, c using processDir.induct cfg srcDir destDir with
  | case1 dir c => simp [processDir, filesUnder]
  | case2 dir c name sub rest ih1 ih2 =>
      simp [processDir, filesUnder, dispatchSrc, ih1, ih2]
  | case3 dir c name width fails rest hs ih =>
      have hs2 : asciiLower (extname name) ∈ SUPPORTED_EXT := by simpa using hs
      simp [processDir, filesUnder, hs, hs2, ih, opt_v1_events_dispatch, isSupported]
  | case4 dir c name width fails rest hs ih =>
      have hs2 : ¬(asciiLower (extname name) ∈ SUPPORTED_EXT) := by simpa using hs
      have hs3 : SUPPORTED_EXT.contains (asciiLower (extname name)) = false := by
        simpa using hs
      simp [processDir, filesUnder, hs2, hs3, ih, isSupported]

theorem processDir_successSrc (cfg : Config) (srcDir destDir : List String)
    (t : List Entry) (dir : List String) (c : Counters) :
    (processDir cfg srcDir destDir t dir c).1.filterMap successSrc
      = ((filesUnder t dir).filter
            (fun f => isSupported f.name && !f.fails)).map
          (fun f => f.dir ++ [f.name]) := by
  induction t, dir, c using processDir.induct cfg srcDir destDir with
  | case1 dir c => simp [processDir, filesUnder]
  | case2 dir c name sub rest ih1 ih2 =>
      simp [processDir, filesUnder, successSrc, ih1, ih2]
  | case3 dir c name width fails rest hs ih =>
      have hs2 : asciiLower (extname name) ∈ SUPPORTED_EXT := by simpa using hs
      cases fails <;>
        simp [processDir, filesUnder, hs, hs2, ih, opt_v1_events_success, isSupported]
  | case4 dir c name width fails rest hs ih =>
      have hs2 : ¬(asciiLower (extname name) ∈ SUPPORTED_EXT) := by simpa using hs
      have hs3 : SUPPORTED_EXT.contains (asciiLower (extname name)) = false := by
        simpa using hs
      simp [processDir, filesUnder, hs2, hs3, ih, isSupported]

theorem processDir_mkdirTree (cfg : Config) (srcDir destDir : List String)
    (t : List Entry) (dir : List String) (c : Counters) :
    (processDir cfg srcDir destDir t dir c).1.filterMap mkdirTreePath
      = (dirsUnder t dir).map (fun p => destDir ++ p.drop srcDir.length) := by
  induction t, dir, c using processDir.induct cfg srcDir destDir with
  | case1 dir c => simp [processDir, dirsUnder]
  | case2 dir c name sub rest ih1 ih2 =>
      simp [processDir, dirsUnder, mkdirTreePath, ih1, ih2]
  | case3 dir c name width fails rest hs ih =>
      have hs2 : asciiLower (extname name) ∈ SUPPORTED_EXT := by simpa using hs
      simp [processDir, dirsUnder, hs2, ih, opt_v1_events_mkdirTree]
  | case4 dir c name width fails rest hs ih =>
      have hs2 : ¬(asciiLower (extname name) ∈ SUPPORTED_EXT) := by simpa using hs
      simp [processDir, dirsUnder, hs2, ih]

theorem processDir_transcode_dest (cfg : Config) (srcDir destDir : List String)
    (t : List Entry) (dir : List String) (c : Counters) :
    ∀ e ∈ (processDir cfg srcDir destDir t dir c).1,
      ∀ src dst base rw enc, e = Event.transcode src dst base rw enc →
        dst = destDir ++ ((src.dropLast).drop srcDir.length) ++ [base ++
          (if asciiLower (extname ((src.getLast?).getD "")) = ".png"
            then ".png" else ".jpg")] := by
  induction t, dir, c using processDir.induct cfg srcDir destDir with
  | case1 dir c => simp [processDir]
  | case2 dir c name sub rest ih1 ih2 =>
      intro e he src dst base rw enc hev
      subst hev
      have he2 : Event.transcode src dst base rw enc
            ∈ (processDir cfg srcDir destDir sub (dir ++ [name]) c).1
          ∨ Event.transcode src dst base rw enc
            ∈ (processDir cfg srcDir destDir rest dir
                (processDir cfg srcDir destDir sub (dir ++ [name]) c).2).1 := by
        simpa [processDir] using he
      rcases he2 with h | h
      · exact ih1 _ h src dst base rw enc rfl
      · exact ih2 _ h src dst base rw enc rfl
  | case3 dir c name width fails rest hs ih =>
      intro e he src dst base rw enc hev
      subst hev
      have hs2 : asciiLower (extname name) ∈ SUPPORTED_EXT := by simpa using hs
      have he2 : Event.transcode src dst base rw enc
            ∈ (optimiseImage_v1 cfg srcDir destDir c (dir ++ [name])
                (asciiLower (extname name)) width fails).events
          ∨ Event.transcode src dst base rw enc
            ∈ (processDir cfg srcDir destDir rest dir
                (optimiseImage_v1 cfg srcDir destDir c (dir ++ [name])
                  (asciiLower (extname name)) width fails).counters).1 := by
        simpa [processDir, hs2] using he
      rcases he2 with h | h
      · rw [opt_v1_events_shape] at h
        cases hf : fails <;> rw [hf] at h <;> simp at h
        obtain ⟨h1, h2, h3, h4, h5⟩ := h
        subst h1
        rw [h2, opt_v1_dest, h3]
        simp [List.getLast?_concat]
      · exact ih _ h src dst base rw enc rfl
  | case4 dir c name width fails rest hs ih =>
      intro e he src dst base rw enc hev
      subst hev
      have hs2 : ¬(asciiLower (extname name) ∈ SUPPORTED_EXT) := by simpa using hs
      have he2 : Event.transcode src dst base rw enc
            ∈ (processDir cfg srcDir destDir rest dir c).1 := by
        simpa [processDir, hs2] using he
      exact ih _ he2 src dst base rw enc rfl

/-! ## The rename numbering invariant -/

theorem range_map_shift (g : Nat → String) (n b : Nat) :
    g n :: (List.range b).map (fun i => g (n + 1 + i))
      = (List.range (b + 1)).map (fun i => g (n + i)) := by
  rw [List.range_succ_eq_map, List.map_cons, List.map_map]
  simp only [Nat.add_zero, List.cons.injEq, true_and]
  apply List.map_congr_left
  intro a _
  simp only [Function.comp_apply]
  congr 1
  omega

theorem range_map_append (g : Nat → String) (n a b : Nat) :
    (List.range a).map (fun i => g (n + i))
        ++ (List.range b).map (fun i => g (n + a + i))
      = (List.range (a + b)).map (fun i => g (n + i)) := by
  rw [List.range_add, List.map_append, List.map_map]
  congr 1
  apply List.map_congr_left
  intro x _
  simp only [Function.comp_apply]
  congr 1
  omega

theorem rangeMap_glue (g : Nat → String) (L1 L2 : List String) (n m p : Nat)
    (h1 : L1 = (List.range L1.length).map (fun i => g (n + i)))
    (hm : m = n + L1.length)
    (h2 : L2 = (List.range L2.length).map (fun i => g (m + i)))
    (hp : p = m + L2.length) :
    L1 ++ L2 = (List.range (L1 ++ L2).length).map (fun i => g (n + i))
      ∧ p = n + (L1 ++ L2).length := by
  subst hm; subst hp
  constructor
  · conv_lhs => rw [h1, h2]
    rw [range_map_append, List.length_append]
  · rw [List.length_append]; omega

theorem rangeMap_glue_cons (g : Nat → String) (L2 : List String) (n p : Nat)
    (h2 : L2 = (List.range L2.length).map (fun i => g (n + 1 + i)))
    (hp : p = (n + 1) + L2.length) :
    g n :: L2 = (List.range (g n :: L2).length).map (fun i => g (n + i))
      ∧ p = n + (g n :: L2).length := by
  subst hp
  constructor
  · conv_lhs => rw [h2]
    rw [range_map_shift, List.length_cons]
  · rw [List.length_cons]; omega

/-- With `--rename`, the walk hands out, for every counter key `k`, the base
names `k-n`, `k-(n+1)`, ... in dispatch order, starting from the current
counter value `n = countersGet c k`, and leaves the counter advanced by the
number of dispatches with key `k`. -/
theorem processDir_rename_invariant (cfg : Config) (srcDir destDir : List String)
    (k : String) (hr : cfg.renameFiles = true) (t : List Entry)
    (dir : List String) (c : Counters) :
    (processDir cfg srcDir destDir t dir c).1.filterMap (dispatchBaseFor srcDir k)
        = (List.range ((processDir cfg srcDir destDir t dir c).1.filterMap
              (dispatchBaseFor srcDir k)).length).map
            (fun i => k ++ "-" ++ toString (countersGet c k + i))
      ∧ countersGet (processDir cfg srcDir destDir t dir c).2 k
          = countersGet c k + ((processDir cfg srcDir destDir t dir c).1.filterMap
                (dispatchBaseFor srcDir k)).length := by
  induction t, dir, c using processDir.induct cfg srcDir destDir with
  | case1 dir c => simp [processDir]
  | case2 dir c name sub rest ih1 ih2 =>
      have hev : (processDir cfg srcDir destDir (Entry.dir name sub :: rest) dir c).1.filterMap
            (dispatchBaseFor srcDir k)
          = (processDir cfg srcDir destDir sub (dir ++ [name]) c).1.filterMap
              (dispatchBaseFor srcDir k)
            ++ (processDir cfg srcDir destDir rest dir
                  (processDir cfg srcDir destDir sub (dir ++ [name]) c).2).1.filterMap
                (dispatchBaseFor srcDir k) := by
        simp [processDir, dispatchBaseFor]
      have hcnt : (processDir cfg srcDir destDir (Entry.dir name sub :: rest) dir c).2
          = (processDir cfg srcDir destDir rest dir
              (processDir cfg srcDir destDir sub (dir ++ [name]) c).2).2 := by
        simp [processDir]
      rw [hev, hcnt]
      exact rangeMap_glue (fun m => k ++ "-" ++ toString m) _ _ _ _ _ ih1.1 ih1.2 ih2.1 ih2.2
  | case3 dir c name width fails rest hs ih =>
      have hs2 : asciiLower (extname name) ∈ SUPPORTED_EXT := by simpa using hs
      have hev : (processDir cfg srcDir destDir (Entry.file name width fails :: rest) dir c).1.filterMap
            (dispatchBaseFor srcDir k)
          = (optimiseImage_v1 cfg srcDir destDir c (dir ++ [name])
                (asciiLower (extname name)) width fails).events.filterMap
              (dispatchBaseFor srcDir k)
            ++ (processDir cfg srcDir destDir rest dir
                  (optimiseImage_v1 cfg srcDir destDir c (dir ++ [name])
                    (asciiLower (extname name)) width fails).counters).1.filterMap
                (dispatchBaseFor srcDir k) := by
        simp [processDir, hs2]
      have hcnt : (processDir cfg srcDir destDir (Entry.file name width fails :: rest) dir c).2
          = (processDir cfg srcDir destDir rest dir
              (optimiseImage_v1 cfg srcDir destDir c (dir ++ [name])
                (asciiLower (extname name)) width fails).counters).2 := by
        simp [processDir, hs2]
      rw [hev, hcnt, opt_v1_events_baseFor cfg srcDir destDir c _ _ width fails k hr]
      rw [opt_v1_counters, hr, if_pos rfl] at ih ⊢
      by_cases htop : topOfSrc srcDir (dir ++ [name]) = k
      · rw [if_pos htop]
        rw [htop] at ih ⊢
        have hget : countersGet (countersSet c k (countersGet c k + 1)) k
            = countersGet c k + 1 := by
          rw [countersGet_set_self]; simp
        rw [hget] at ih
        rw [List.singleton_append]
        exact rangeMap_glue_cons (fun m => k ++ "-" ++ toString m) _ _ _ ih.1 ih.2
      · rw [if_neg htop]
        have hget : countersGet (countersSet c (topOfSrc srcDir (dir ++ [name]))
              (countersGet c (topOfSrc srcDir (dir ++ [name])) + 1)) k
            = countersGet c k := by
          exact countersGet_set_ne _ _ _ _ (Ne.symm htop)
        rw [hget] at ih
        simpa using ih
  | case4 dir c name width fails rest hs ih =>
      have hs2 : ¬(asciiLower (extname name) ∈ SUPPORTED_EXT) := by simpa using hs
      have hev : processDir cfg srcDir destDir (Entry.file name width fails :: rest) dir c
          = processDir cfg srcDir destDir rest dir c := by
        simp [processDir, hs2]
      rw [hev]
      exact ih

/-- Without `--rename`, every dispatched file keeps its original base name. -/
theorem processDir_norename_base (cfg : Config) (srcDir destDir : List String)
    (hr : cfg.renameFiles = false) (t : List Entry) (dir : List String)
    (c : Counters) :
    ∀ e ∈ (processDir cfg srcDir destDir t dir c).1,
      ∀ src dst base,
        ((∃ rw enc, e = Event.transcode src dst base rw enc)
          ∨ e = Event.failed src dst base) →
        base = stripExt ((src.getLast?).getD "") := by
  induction t, dir, c using processDir.induct cfg srcDir destDir with
  | case1 dir c => simp [processDir]
  | case2 dir c name sub rest ih1 ih2 =>
      intro e he src dst base hev
      have he2 : e ∈ (processDir cfg srcDir destDir sub (dir ++ [name]) c).1
          ∨ e ∈ (processDir cfg srcDir destDir rest dir
              (processDir cfg srcDir destDir sub (dir ++ [name]) c).2).1 := by
        have hne : e ≠ Event.mkdirTree (destDir ++ (dir ++ [name]).drop srcDir.length) := by
          rcases hev with ⟨rw, enc, hev⟩ | hev <;> subst hev <;> intro hh <;> cases hh
        have := he
        simp only [processDir] at this
        rcases (by simpa using this : _ ∨ _ ∨ _) with h | h | h
        · exact absurd h hne
        · exact Or.inl h
        · exact Or.inr h
      rcases he2 with h | h
      · exact ih1 _ h src dst base hev
      · exact ih2 _ h src dst base hev
  | case3 dir c name width fails rest hs ih =>
      intro e he src dst base hev
      have hs2 : asciiLower (extname name) ∈ SUPPORTED_EXT := by simpa using hs
      have he2 : e ∈ (optimiseImage_v1 cfg srcDir destDir c (dir ++ [name])
            (asciiLower (extname name)) width fails).events
          ∨ e ∈ (processDir cfg srcDir destDir rest dir
              (optimiseImage_v1 cfg srcDir destDir c (dir ++ [name])
                (asciiLower (extname name)) width fails).counters).1 := by
        have := he
        simp only [processDir] at this
        rw [if_pos (by simpa using hs2)] at this
        simpa using this
      rcases he2 with h | h
      · rw [opt_v1_events_shape] at h
        have hbase : base = (optimiseImage_v1 cfg srcDir destDir c (dir ++ [name])
            (asciiLower (extname name)) width fails).base ∧ src = dir ++ [name] := by
          cases hf : fails <;> rw [hf] at h <;> simp at h <;>
            rcases hev with ⟨rw, enc, hev⟩ | hev <;> subst hev <;> simp at h <;> tauto
        rw [hbase.1, hbase.2, opt_v1_base_norename cfg srcDir destDir c _ _ width fails hr]
      · exact ih _ h src dst base hev
  | case4 dir c name width fails rest hs ih =>
      intro e he src dst base hev
      have hs2 : ¬(asciiLower (extname name) ∈ SUPPORTED_EXT) := by simpa using hs
      have he2 : e ∈ (processDir cfg srcDir destDir rest dir c).1 := by
        simpa [processDir, hs2] using he
      exact ih _ he2 src dst base hev

/-! ## Relating walks started at an absolute directory to relative views -/

theorem filesUnder_shift (d : List String) (t : List Entry) (r : List String) :
    filesUnder t (d ++ r)
      = (filesUnder t r).map (fun f => { f with dir := d ++ f.dir }) := by
  induction t, r using filesUnder.induct with
  | case1 r => simp [filesUnder]
  | case2 name sub rest r ih1 ih2 =>
      have h : d ++ (r ++ [name]) = (d ++ r) ++ [name] := by
        simp [List.append_assoc]
      simp only [filesUnder, List.map_append, ← h, ih1, ih2]
  | case3 name width fails rest r ih =>
      simp [filesUnder, ih]

theorem dirsUnder_shift (d : List String) (t : List Entry) (r : List String) :
    dirsUnder t (d ++ r) = (dirsUnder t r).map (fun p => d ++ p) := by
  induction t, r using dirsUnder.induct with
  | case1 r => simp [dirsUnder]
  | case2 name sub rest r ih1 ih2 =>
      have h : d ++ (r ++ [name]) = (d ++ r) ++ [name] := by
        simp [List.append_assoc]
      simp only [dirsUnder, List.map_cons, List.map_append, ← h, ih1, ih2]
  | case3 name width fails rest r ih =>
      simp [dirsUnder, ih]

/-! ## Claim theorems -/

/-- C2: the per-file transcoder re-encodes per format rule: a source file
whose lowercased extension is `.png` is written as a PNG with extension
`.png` (palette-quantized at the configured PNG quality when the
compress-PNG flag is set, lossless otherwise), and every other source file
is written as a JPEG with extension `.jpg` at the configured JPEG quality. -/
theorem c2_format_rule (cfg : Config) (srcDir destDir : List String)
    (c : Counters) (fp : List String) (ext : String) (w : Option Nat)
    (hext : ext = asciiLower (extname ((fp.getLast?).getD ""))) :
    (ext = ".png" →
        (optimiseImage_v1 cfg srcDir destDir c fp ext w false).encode
          = (if cfg.compressPNG then EncodeSettings.pngQuant cfg.pngQuality
              else EncodeSettings.pngLossless)
        ∧ (optimiseImage_v1 cfg srcDir destDir c fp ext w false).dest.getLast?
          = some ((optimiseImage_v1 cfg srcDir destDir c fp ext w false).base ++ ".png"))
    ∧ (ext ≠ ".png" →
        (optimiseImage_v1 cfg srcDir destDir c fp ext w false).encode
          = EncodeSettings.jpegMoz cfg.jpegQuality
        ∧ (optimiseImage_v1 cfg srcDir destDir c fp ext w false).dest.getLast?
          = some ((optimiseImage_v1 cfg srcDir destDir c fp ext w false).base ++ ".jpg"))
    ∧ (optimiseImage_v1 cfg srcDir destDir c fp ext w false).events
        = [Event.mkdirParent (optimiseImage_v1 cfg srcDir destDir c fp ext w false).dest.dropLast,
            Event.transcode fp (optimiseImage_v1 cfg srcDir destDir c fp ext w false).dest
              (optimiseImage_v1 cfg srcDir destDir c fp ext w false).base
              (optimiseImage_v1 cfg srcDir destDir c fp ext w false).resizeWidth
              (optimiseImage_v1 cfg srcDir destDir c fp ext w false).encode] := by
  refine ⟨fun hp => ⟨?_, ?_⟩, fun hn => ⟨?_, ?_⟩, ?_⟩
  · rw [opt_v1_encode, if_pos hp]
  · rw [opt_v1_dest, if_pos hp]
    simp
  · rw [opt_v1_encode, if_neg hn]
  · rw [opt_v1_dest, if_neg hn]
    simp
  · rw [opt_v1_events_shape]
    simp

/-- Witness for C2 at a concrete uppercase-extension PNG file. -/
theorem c2_format_rule_witness :
    (optimiseImage_v1 {} ["in"] ["out"] [] ["in", "photo.PNG"] ".png" none false).encode
        = (if ({} : Config).compressPNG then EncodeSettings.pngQuant ({} : Config).pngQuality
            else EncodeSettings.pngLossless)
      ∧ (optimiseImage_v1 {} ["in"] ["out"] [] ["in", "photo.PNG"] ".png" none false).dest.getLast?
        = some ((optimiseImage_v1 {} ["in"] ["out"] [] ["in", "photo.PNG"] ".png" none false).base
            ++ ".png") :=
  (c2_format_rule {} ["in"] ["out"] [] ["in", "photo.PNG"] ".png" none (by decide)).1 rfl

/-- C3: resize only if needed: a decoded width above 1920 yields a resize to
width 1920, a width of at most 1920 (or an unknown width) yields no
resize. -/
theorem c3_resize_policy (cfg : Config) (srcDir destDir : List String)
    (c : Counters) (fp : List String) (ext : String) (fl : Bool) :
    (∀ w : Nat, 1920 < w →
        (optimiseImage_v1 cfg srcDir destDir c fp ext (some w) fl).resizeWidth
          = some 1920)
      ∧ (∀ w : Nat, w ≤ 1920 →
          (optimiseImage_v1 cfg srcDir destDir c fp ext (some w) fl).resizeWidth
            = none)
      ∧ (optimiseImage_v1 cfg srcDir destDir c fp ext none fl).resizeWidth = none := by
  refine ⟨fun w hw => ?_, fun w hw => ?_, ?_⟩ <;> rw [opt_v1_resizeWidth]
  · have h0 : ¬ (w = 0) := by omega
    simp [h0, hw]
  · have h1 : ¬ (1920 < w) := by omega
    by_cases h0 : w = 0 <;> simp [h0, h1]

/-- Witness for C3 at widths 2000 and 800. -/
theorem c3_resize_policy_witness :
    (optimiseImage_v1 {} ["in"] ["out"] [] ["in", "x.jpg"] ".jpg" (some 2000) false).resizeWidth
        = some 1920
      ∧ (optimiseImage_v1 {} ["in"] ["out"] [] ["in", "x.jpg"] ".jpg" (some 800) false).resizeWidth
        = none :=
  ⟨(c3_resize_policy {} ["in"] ["out"] [] ["in", "x.jpg"] ".jpg" false).1 2000 (by omega),
    (c3_resize_policy {} ["in"] ["out"] [] ["in", "x.jpg"] ".jpg" false).2.1 800 (by omega)⟩

/-- C10: for every configuration, counter state and source file path, the two
per-file transcoders (`optimiseImage` of `src/imageOptimizer.js`, called with
the lowercased extension as `processDir` does, and `optimiseImage` of
`src/unnamed/part_000`) compute the same destination path, output base name,
resize setting, encoder settings and counter update. -/
theorem c10_transcoders_equivalent (cfg : Config) (srcDir destDir : List String)
    (c : Counters) (fp : List String) (w : Option Nat) (fl : Bool) :
    (optimiseImage_v1 cfg srcDir destDir c fp
        (asciiLower (extname ((fp.getLast?).getD ""))) w fl).dest
      = (optimiseImage_v2 cfg srcDir destDir c fp w fl).dest
    ∧ (optimiseImage_v1 cfg srcDir destDir c fp
        (asciiLower (extname ((fp.getLast?).getD ""))) w fl).base
      = (optimiseImage_v2 cfg srcDir destDir c fp w fl).base
    ∧ (optimiseImage_v1 cfg srcDir destDir c fp
        (asciiLower (extname ((fp.getLast?).getD ""))) w fl).resizeWidth
      = (optimiseImage_v2 cfg srcDir destDir c fp w fl).resizeWidth
    ∧ (optimiseImage_v1 cfg srcDir destDir c fp
        (asciiLower (extname ((fp.getLast?).getD ""))) w fl).encode
      = (optimiseImage_v2 cfg srcDir destDir c fp w fl).encode
    ∧ (optimiseImage_v1 cfg srcDir destDir c fp
        (asciiLower (extname ((fp.getLast?).getD ""))) w fl).counters
      = (optimiseImage_v2 cfg srcDir destDir c fp w fl).counters := by
  cases fl <;> cases hr : cfg.renameFiles <;>
    simp [optimiseImage_v1, optimiseImage_v2, hr]

/-- C5: output preparation always leaves the output directory existing; a
pre-existing nonempty output directory is wiped exactly when `--force-delete`
was given or the user confirmed, and is left untouched when it was empty or
the user declined. -/
theorem c5_output_preparation (forceDelete userConfirm : Bool)
    (dest : Option (List String)) :
    (prepareOutput forceDelete dest userConfirm).existsAfter = true
    ∧ (∀ files, dest = some files → files ≠ [] →
        (forceDelete || userConfirm) = true →
        (prepareOutput forceDelete dest userConfirm).deleted = true
        ∧ (prepareOutput forceDelete dest userConfirm).contentsAfter = [])
    ∧ (∀ files, dest = some files →
        files = [] ∨ (forceDelete = false ∧ userConfirm = false) →
        (prepareOutput forceDelete dest userConfirm).deleted = false
        ∧ (prepareOutput forceDelete dest userConfirm).contentsAfter = files) := by
  refine ⟨?_, ?_, ?_⟩
  · cases dest with
    | none => rfl
    | some files =>
        cases forceDelete <;> cases userConfirm <;>
          by_cases h : files.length = 0 <;> simp [prepareOutput, h]
  · intro files hd hne hdel
    subst hd
    cases files with
    | nil => exact absurd rfl hne
    | cons a l =>
        cases forceDelete with
        | true => simp [prepareOutput]
        | false =>
            cases userConfirm with
            | true => simp [prepareOutput]
            | false => simp at hdel
  · intro files hd hcase
    subst hd
    rcases hcase with hnil | ⟨hfd, hu⟩
    · subst hnil
      simp [prepareOutput]
    · subst hfd; subst hu
      cases files <;> simp [prepareOutput]

/-- Witness for C5: an existing nonempty output directory is wiped under
`--force-delete`, and preserved when the prompt is declined. -/
theorem c5_output_preparation_witness :
    ((prepareOutput true (some ["old.jpg"]) false).deleted = true
      ∧ (prepareOutput true (some ["old.jpg"]) false).contentsAfter = [])
    ∧ ((prepareOutput false (some ["old.jpg"]) false).deleted = false
      ∧ (prepareOutput false (some ["old.jpg"]) false).contentsAfter = ["old.jpg"]) :=
  ⟨(c5_output_preparation true false (some ["old.jpg"])).2.1 ["old.jpg"] rfl
      (by decide) (by decide),
    (c5_output_preparation false false (some ["old.jpg"])).2.2 ["old.jpg"] rfl
      (Or.inr ⟨rfl, rfl⟩)⟩

/-- C6: both parsers default the JPEG quality to 75 and the PNG quality to
80, both reject out-of-range quality values with an error exit before any
file is processed — but only `imageOptimizer.js` makes `-P` imply
`--compress-png`; in `src/unnamed/part_000` the option help promises the
implication (line 69) while `compressPNG` stays false (line 81), so
`-P 70` alone leaves PNGs lossless there. -/
theorem c6_png_quality_divergence :
    parseLoop ["-P", "70"] {} []
        = ParseOutcome.ok { pngQuality := 70, compressPNG := true } []
      ∧ parseCommander ["-P", "70"] {} []
        = ParseOutcome.ok { pngQuality := 70, compressPNG := false } []
      ∧ parseLoop [] {} [] = ParseOutcome.ok {} []
      ∧ parseCommander [] {} [] = ParseOutcome.ok {} []
      ∧ ({} : Config).jpegQuality = 75 ∧ ({} : Config).pngQuality = 80
      ∧ parseLoop ["-q", "0"] {} []
        = ParseOutcome.errorExit "JPEG quality must be 1-100"
      ∧ parseLoop ["-q", "101"] {} []
        = ParseOutcome.errorExit "JPEG quality must be 1-100"
      ∧ parseLoop ["-P", "101"] {} []
        = ParseOutcome.errorExit "PNG quality must be 1-100"
      ∧ parseCommander ["-q", "0"] {} []
        = ParseOutcome.errorExit "Value must be an integer between 1 and 100"
      ∧ parseCommander ["-P", "101"] {} []
        = ParseOutcome.errorExit "Value must be an integer between 1 and 100"
      ∧ runProgram ["-q", "0"] true ["in"] ["out"] [Entry.file "x.jpg" none false]
          none false = [] := by
  refine ⟨by decide, by decide, by decide, by decide, by decide, by decide,
    by decide, by decide, by decide, by decide, by decide, ?_⟩
  have h : parseLoop ["-q", "0"] {} []
      = ParseOutcome.errorExit "JPEG quality must be 1-100" := by decide
  simp [runProgram, h]

/-- C4: the tree walker dispatches to the per-file transcoder exactly the
files whose lowercased extension is supported (all other files produce no
dispatch), and creates, under the output directory, the directory
corresponding to every subdirectory of the input tree, at the same relative
path. -/
theorem c4_walker_dispatch_and_mkdir (cfg : Config) (srcDir destDir : List String)
    (t : List Entry) (c : Counters) :
    (processDir cfg srcDir destDir t srcDir c).1.filterMap dispatchSrc
        = ((filesUnder t []).filter (fun f => isSupported f.name)).map
            (fun f => srcDir ++ f.dir ++ [f.name])
      ∧ (processDir cfg srcDir destDir t srcDir c).1.filterMap mkdirTreePath
        = (dirsUnder t []).map (fun p => destDir ++ p) := by
  constructor
  · rw [processDir_dispatchSrc]
    have hshift := filesUnder_shift srcDir t []
    rw [List.append_nil] at hshift
    rw [hshift, List.filter_map, List.map_map]
    apply List.map_congr_left
    intro f hf
    simp [Function.comp, List.append_assoc]
  · rw [processDir_mkdirTree]
    have hshift := dirsUnder_shift srcDir t []
    rw [List.append_nil] at hshift
    rw [hshift, List.map_map]
    apply List.map_congr_left
    intro p hp
    simp [Function.comp, List.drop_left]

/-- C1: every supported, successfully transcoded file located at relative
directory `r` of the input tree produces a transcode into the output
directory at the same relative directory `r`. -/
theorem c1_output_mirrors_relative_directory (cfg : Config)
    (srcDir destDir : List String) (t : List Entry) (c : Counters) (f : FileAt)
    (hf : f ∈ filesUnder t []) (hsupp : isSupported f.name = true)
    (hok : f.fails = false) :
    ∃ dst base rw enc,
      Event.transcode ((srcDir ++ f.dir) ++ [f.name]) dst base rw enc
          ∈ (processDir cfg srcDir destDir t srcDir c).1
        ∧ dst.dropLast = destDir ++ f.dir := by
  have hsrc : (srcDir ++ f.dir) ++ [f.name]
      ∈ (processDir cfg srcDir destDir t srcDir c).1.filterMap successSrc := by
    rw [processDir_successSrc]
    have hshift := filesUnder_shift srcDir t []
    rw [List.append_nil] at hshift
    rw [hshift, List.filter_map]
    refine List.mem_map.mpr ⟨⟨srcDir ++ f.dir, f.name, f.width, f.fails⟩, ?_, rfl⟩
    refine List.mem_map.mpr ⟨f, ?_, rfl⟩
    refine List.mem_filter.mpr ⟨hf, ?_⟩
    simp [Function.comp, hsupp, hok]
  obtain ⟨e, he, hse⟩ := List.mem_filterMap.mp hsrc
  cases e with
  | transcode src dst base rw enc =>
      have hsrc2 : src = (srcDir ++ f.dir) ++ [f.name] := by
        simpa [successSrc] using hse
      subst hsrc2
      have hdst := processDir_transcode_dest cfg srcDir destDir t srcDir c _ he
        _ _ _ _ _ rfl
      refine ⟨dst, base, rw, enc, he, ?_⟩
      rw [hdst]
      simp [List.dropLast_concat, List.drop_left]
  | mkdirTree p => simp [successSrc] at hse
  | mkdirParent p => simp [successSrc] at hse
  | failed src dst base => simp [successSrc] at hse

/-- Witness for C1 at a one-folder, one-file tree. -/
theorem c1_output_mirrors_witness :
    ∃ dst base rw enc,
      Event.transcode ((["in"] ++ ["a"]) ++ ["x.jpg"]) dst base rw enc
          ∈ (processDir {} ["in"] ["out"]
              [Entry.dir "a" [Entry.file "x.jpg" (some 100) false]] ["in"] []).1
        ∧ dst.dropLast = ["out"] ++ ["a"] :=
  c1_output_mirrors_relative_directory {} ["in"] ["out"]
    [Entry.dir "a" [Entry.file "x.jpg" (some 100) false]] []
    ⟨["a"], "x.jpg", some 100, false⟩
    (by simp [filesUnder]) (by decide) rfl

/-- C7 counterexample: rename counters are keyed by the `top` string, and
files directly in the input root use `path.basename(srcDir)` as their key;
with input directory `/root/input` containing a root file `a.jpg` and a
top-level folder also called `input` containing `b.jpg`, the first (and
only) supported file processed under the top-level folder `input` is written
with base name `input-2`, not `input-1` as the claim requires. -/
theorem c7_rename_counterexample :
    (processDir { renameFiles := true } ["root", "input"] ["out"]
        [Entry.file "a.jpg" none false,
          Entry.dir "input" [Entry.file "b.jpg" none false]]
        ["root", "input"] []).1
      = [Event.mkdirParent ["out"],
          Event.transcode ["root", "input", "a.jpg"] ["out", "input-1.jpg"] "input-1"
            none (EncodeSettings.jpegMoz 75),
          Event.mkdirTree ["out", "input"],
          Event.mkdirParent ["out", "input"],
          Event.transcode ["root", "input", "input", "b.jpg"]
            ["out", "input", "input-2.jpg"] "input-2" none (EncodeSettings.jpegMoz 75)]
      ∧ "input-2" ≠ "input-1" := by
  constructor
  · have h1 : asciiLower (extname "a.jpg") = ".jpg" := by decide
    have h2 : asciiLower (extname "b.jpg") = ".jpg" := by decide
    simp [processDir, optimiseImage_v1, nextIndex, countersGet, countersSet,
      countersLookup, stripExt, SUPPORTED_EXT, h1, h2]
    decide
  · decide

/-- C7 (amended): with the rename flag, dispatched files are numbered per
counter key — the key of a file being its top-level folder name, or the
input root's base name for files directly in the root — and the i-th
dispatch with key `k` (0-based, over the whole walk, counting failed
attempts) gets output base name `k-(i+1)`; a top-level folder whose name
equals the input root's base name therefore continues the root files'
numbering instead of restarting at 1.  Without the rename flag, every
dispatched file keeps its original base name. -/
theorem c7_rename_numbering_amended (cfg : Config) (srcDir destDir : List String)
    (t : List Entry) (k : String) :
    (cfg.renameFiles = true →
        ∀ i : Nat,
          i < ((processDir cfg srcDir destDir t srcDir []).1.filterMap
              (dispatchBaseFor srcDir k)).length →
          ((processDir cfg srcDir destDir t srcDir []).1.filterMap
              (dispatchBaseFor srcDir k)).get? i
            = some (k ++ "-" ++ toString (i + 1)))
      ∧ (cfg.renameFiles = false →
          ∀ e ∈ (processDir cfg srcDir destDir t srcDir []).1, ∀ src dst base,
            ((∃ rw enc, e = Event.transcode src dst base rw enc)
              ∨ e = Event.failed src dst base) →
            base = stripExt ((src.getLast?).getD "")) := by
  constructor
  · intro hr i hi
    have hinv := (processDir_rename_invariant cfg srcDir destDir k hr t srcDir []).1
    rw [hinv]
    have hget : countersGet [] k = 1 := rfl
    rw [hget]
    rw [List.get?_map, List.get?_range hi]
    simp [Nat.add_comm 1 i]
  · intro hr
    exact processDir_norename_base cfg srcDir destDir hr t srcDir []

/-- Witness for C7 (amended) at a one-file tree. -/
theorem c7_rename_numbering_witness :
    ((processDir { renameFiles := true } ["in"] ["out"]
        [Entry.file "x.jpg" none false] ["in"] []).1.filterMap
        (dispatchBaseFor ["in"] "in")).get? 0
      = some ("in" ++ "-" ++ toString (0 + 1)) := by
  have hL : (processDir { renameFiles := true } ["in"] ["out"]
      [Entry.file "x.jpg" none false] ["in"] []).1
      = [Event.mkdirParent ["out"],
          Event.transcode ["in", "x.jpg"] ["out", "in-1.jpg"] "in-1"
            none (EncodeSettings.jpegMoz 75)] := by
    have h1 : asciiLower (extname "x.jpg") = ".jpg" := by decide
    simp [processDir, optimiseImage_v1, nextIndex, countersGet, countersSet,
      countersLookup, stripExt, SUPPORTED_EXT, h1]
    decide
  apply (c7_rename_numbering_amended { renameFiles := true } ["in"] ["out"]
      [Entry.file "x.jpg" none false] "in").1 rfl 0
  rw [hL]
  decide

/-- C8: the pipeline is linear: any walk event (in particular any transcode)
appears in the program trace only at position 2 or later, strictly after the
configuration step at position 0 and the output-preparation step at
position 1; a configuration error produces no trace at all. -/
theorem c8_pipeline_order (argv : List String) (srcExists : Bool)
    (srcDir destDir : List String) (t : List Entry)
    (destContents : Option (List String)) (userConfirm : Bool) :
    ∀ i : Nat, ∀ ev : Event,
      (runProgram argv srcExists srcDir destDir t destContents userConfirm).get? i
          = some (TraceEv.walkEv ev) →
      2 ≤ i
        ∧ (∃ cfg, (runProgram argv srcExists srcDir destDir t destContents
            userConfirm).get? 0 = some (TraceEv.configDone cfg))
        ∧ (∃ p, (runProgram argv srcExists srcDir destDir t destContents
            userConfirm).get? 1 = some (TraceEv.prepared p)) := by
  intro i ev hi
  unfold runProgram at hi ⊢
  cases hp : parseLoop argv {} [] with
  | errorExit m => rw [hp] at hi; simp at hi
  | helpExit => rw [hp] at hi; simp at hi
  | ok cfg pos =>
      rw [hp] at hi
      cases hs : srcExists with
      | false =>
          rw [hs] at hi
          rcases i with _ | _ | i <;> simp at hi
      | true =>
          rw [hs] at hi
          refine ⟨?_, ⟨cfg, by simp⟩,
            ⟨prepareOutput cfg.forceDelete destContents userConfirm, by simp⟩⟩
          rcases i with _ | _ | i
          · simp at hi
          · simp at hi
          · omega

/-- Witness for C8: in a run over a one-file tree, the transcode appears at
position 3, after configuration and output preparation. -/
theorem c8_pipeline_order_witness :
    2 ≤ 3
      ∧ (∃ cfg, (runProgram [] true ["in"] ["out"] [Entry.file "x.jpg" none false]
          none false).get? 0 = some (TraceEv.configDone cfg))
      ∧ (∃ p, (runProgram [] true ["in"] ["out"] [Entry.file "x.jpg" none false]
          none false).get? 1 = some (TraceEv.prepared p)) := by
  have h1 : asciiLower (extname "x.jpg") = ".jpg" := by decide
  refine c8_pipeline_order [] true ["in"] ["out"] [Entry.file "x.jpg" none false]
    none false 3
    (Event.transcode ["in", "x.jpg"] ["out", "x.jpg"] "x" none
      (EncodeSettings.jpegMoz 75)) ?_
  have hw : (processDir ({} : Config) ["in"] ["out"] [Entry.file "x.jpg" none false]
      ["in"] []).1
      = [Event.mkdirParent ["out"],
          Event.transcode ["in", "x.jpg"] ["out", "x.jpg"] "x" none
            (EncodeSettings.jpegMoz 75)] := by
    simp [processDir, optimiseImage_v1, nextIndex, stripExt, SUPPORTED_EXT, h1]
    decide
  have hp : parseLoop [] {} [] = ParseOutcome.ok {} [] := by decide
  simp [runProgram, hp, hw]

/-- C9: a failure while transcoding one file is caught inside the per-file
transcoder: it contributes exactly one logged-failure event, the events of
everything walked before it are unchanged, and the walk continues over all
remaining entries. -/
theorem c9_per_file_failure_isolated (cfg : Config) (srcDir destDir : List String)
    (es₁ es₂ : List Entry) (name : String) (width : Option Nat) (c : Counters)
    (hsupp : isSupported name = true) :
    (processDir cfg srcDir destDir (es₁ ++ Entry.file name width true :: es₂)
        srcDir c).1
      = (processDir cfg srcDir destDir es₁ srcDir c).1
        ++ Event.failed (srcDir ++ [name])
            (optimiseImage_v1 cfg srcDir destDir
              (processDir cfg srcDir destDir es₁ srcDir c).2
              (srcDir ++ [name]) (asciiLower (extname name)) width true).dest
            (optimiseImage_v1 cfg srcDir destDir
              (processDir cfg srcDir destDir es₁ srcDir c).2
              (srcDir ++ [name]) (asciiLower (extname name)) width true).base
          :: (processDir cfg srcDir destDir es₂ srcDir
              (optimiseImage_v1 cfg srcDir destDir
                (processDir cfg srcDir destDir es₁ srcDir c).2
                (srcDir ++ [name]) (asciiLower (extname name)) width true).counters).1 := by
  have hs2 : asciiLower (extname name) ∈ SUPPORTED_EXT := by
    simpa [isSupported] using hsupp
  rw [processDir_append]
  simp only [processDir]
  rw [if_pos (by simpa using hs2)]
  rw [opt_v1_events_shape]
  simp

/-- Witness for C9: a failing middle file between two good files. -/
theorem c9_per_file_failure_witness :
    (processDir {} ["in"] ["out"]
        ([Entry.file "a.jpg" none false]
          ++ Entry.file "b.jpg" none true :: [Entry.file "c.jpg" none false])
        ["in"] []).1
      = (processDir {} ["in"] ["out"] [Entry.file "a.jpg" none false] ["in"] []).1
        ++ Event.failed (["in"] ++ ["b.jpg"])
            (optimiseImage_v1 {} ["in"] ["out"]
              (processDir {} ["in"] ["out"] [Entry.file "a.jpg" none false] ["in"] []).2
              (["in"] ++ ["b.jpg"]) (asciiLower (extname "b.jpg")) none true).dest
            (optimiseImage_v1 {} ["in"] ["out"]
              (processDir {} ["in"] ["out"] [Entry.file "a.jpg" none false] ["in"] []).2
              (["in"] ++ ["b.jpg"]) (asciiLower (extname "b.jpg")) none true).base
          :: (processDir {} ["in"] ["out"] [Entry.file "c.jpg" none false] ["in"]
              (optimiseImage_v1 {} ["in"] ["out"]
                (processDir {} ["in"] ["out"] [Entry.file "a.jpg" none false] ["in"] []).2
                (["in"] ++ ["b.jpg"]) (asciiLower (extname "b.jpg")) none true).counters).1 :=
  c9_per_file_failure_isolated {} ["in"] ["out"]
    [Entry.file "a.jpg" none false] [Entry.file "c.jpg" none false]
    "b.jpg" none [] (by decide)

end ImageOptimizer
